import Mathlib

/-!
Verification development for the costudy-api retrieval-and-classification
subsystem.

The JavaScript sources are shallowly embedded over `List Char`:

* `Server.*` embeds the classifier of `src/server.js` (lines 892-939), which is
  character-identical to the classifier of `src/unnamed/part_000` (lines 43-147).
* `Scripts.*` embeds the pattern-list classifier of
  `src/scripts/classify-chunks.js` (lines 30-91).
* The retrieval coordinator (`retrieveContext`), noise filter (`isNoisyChunk`),
  context assembler (`buildContextBlock`) and the three batch-classification
  runners are embedded below, each annotated with the source lines it mirrors.

Modelling conventions: JavaScript strings are `List Char`; `String.length` is
the code-point count; `toLowerCase` is ASCII lowering (`Char.toLower`);
regular-expression tests are compiled to decidable scanners whose doc comments
record the regex they implement.  Greedy quantifiers over character classes
followed by a character outside the class are deterministic (the maximal run is
the only viable match), which the scanners exploit; the one regex needing real
backtracking (`\bID:\s*\w+\s*(\d+\.\d+)`) is implemented with an explicit
longest-first search.
-/

/-! ### Character classes (JavaScript regex semantics) -/

/-- The JavaScript regex whitespace class `\s` (also the character set removed
by `String.prototype.trim`). -/
def jsSpace (c : Char) : Bool :=
  c = ' ' || c = '\t' || c = '\n' || c = '\r' ||
  c.toNat = 0xb || c.toNat = 0xc || c.toNat = 0xa0 || c.toNat = 0x1680 ||
  (0x2000 ≤ c.toNat && c.toNat ≤ 0x200a) ||
  c.toNat = 0x2028 || c.toNat = 0x2029 || c.toNat = 0x202f ||
  c.toNat = 0x205f || c.toNat = 0x3000 || c.toNat = 0xfeff

/-- JavaScript line terminators (`^` in multiline mode matches after these;
`.` without the `s` flag matches everything else). -/
def isLineTerm (c : Char) : Bool :=
  c = '\n' || c = '\r' || c.toNat = 0x2028 || c.toNat = 0x2029

/-- The JavaScript regex word class `\w` = `[A-Za-z0-9_]`. -/
def isWordChar (c : Char) : Bool :=
  c.isAlpha || c.isDigit || c = '_'

/-- Case-insensitive `[a-d]` (the `/i` classes `[a-d]` and `[A-D]`). -/
def isLetterADci (c : Char) : Bool :=
  'a' ≤ c.toLower && c.toLower ≤ 'd'

/-- The class `[.)]` used by the option-token regexes. -/
def isDotParen (c : Char) : Bool :=
  c = '.' || c = ')'

/-- The class `[:\s]` (colon or whitespace). -/
def colonWs (c : Char) : Bool :=
  c = ':' || jsSpace c

/-- Case-insensitive literal match: `pat` is given lowercase; on success the
remainder of the input is returned. -/
def matchLitCI : List Char → List Char → Option (List Char)
  | [], l => some l
  | _ :: _, [] => none
  | p :: ps, c :: cs => if c.toLower = p then matchLitCI ps cs else none

/-! ### Generic scanners

An unanchored JavaScript `re.test(s)` is an existence check over start
positions; `scanB` additionally tracks whether the previous character is a word
character, giving the `\b` assertion for patterns beginning with a word
character. -/

/-- Scan every position; `test` receives the suffix starting there. -/
def scanAny (test : List Char → Bool) : List Char → Bool
  | [] => false
  | c :: rest => test (c :: rest) || scanAny test rest

/-- Scan positions preceded by a non-word character (or the string start):
the `\b` assertion for a pattern starting with a word character. -/
def scanB (test : List Char → Bool) : Bool → List Char → Bool
  | _, [] => false
  | prevW, c :: rest => (!prevW && test (c :: rest)) || scanB test (isWordChar c) rest

/-- Option-valued variant of `scanAny`: leftmost match wins. -/
def scanAnyOpt (f : List Char → Option (List Char)) : List Char → Option (List Char)
  | [] => none
  | c :: rest => f (c :: rest) <|> scanAnyOpt f rest

/-- Option-valued variant of `scanB`: leftmost boundary match wins. -/
def scanBOpt (f : List Char → Option (List Char)) : Bool → List Char → Option (List Char)
  | _, [] => none
  | prevW, c :: rest =>
    (if !prevW then f (c :: rest) else none) <|> scanBOpt f (isWordChar c) rest

/-- Scan only line-start positions (string start or after a line terminator):
the multiline `^` assertion. Leftmost match wins. -/
def scanLS (f : List Char → Option (List Char)) : Bool → List Char → Option (List Char)
  | _, [] => none
  | atStart, c :: rest =>
    (if atStart then f (c :: rest) else none) <|> scanLS f (isLineTerm c) rest

/-- The `(\d+)` at the end of a pattern: the maximal digit run, failing on zero
digits. -/
def digitsCapture (l : List Char) : Option (List Char) :=
  match l.takeWhile Char.isDigit with
  | [] => none
  | d :: ds => some (d :: ds)

/-- The `\d+\.\d+`: a maximal digit run, a literal dot, a maximal digit run.
Deterministic: giving back digits of either run can never satisfy the
following literal. -/
def ddCapture (l : List Char) : Option (List Char) :=
  match l.takeWhile Char.isDigit with
  | [] => none
  | d :: ds =>
    match l.drop (d :: ds).length with
    | '.' :: r2 =>
      match r2.takeWhile Char.isDigit with
      | [] => none
      | e :: es => some ((d :: ds) ++ '.' :: e :: es)
    | _ => none

namespace Server

/-! ### Chunk classifier of `src/server.js` (lines 892-939)

Identical, character for character, to the classifier of
`src/unnamed/part_000` (lines 43-147). -/

/-- Test of `/\b[a-d]\s*[.)]\s*\w/i` at one position. -/
def choiceAt : List Char → Bool
  | [] => false
  | c :: rest =>
    isLetterADci c &&
      (match rest.dropWhile jsSpace with
       | p :: r2 =>
         isDotParen p &&
           (match r2.dropWhile jsSpace with
            | w :: _ => isWordChar w
            | [] => false)
       | [] => false)

/-- Test of `/\b(option|choice)\s*[a-d]/i` at one position. -/
def optionChoiceAt (l : List Char) : Bool :=
  match matchLitCI "option".data l <|> matchLitCI "choice".data l with
  | some rest =>
    (match rest.dropWhile jsSpace with
     | c :: _ => isLetterADci c
     | [] => false)
  | none => false

/-- The `hasChoices` of `isMCQQuestion`:
`/\b[a-d]\s*[.)]\s*\w/i.test(content) || /\b(option|choice)\s*[a-d]/i.test(c)`
where `c = content.toLowerCase()`. -/
def hasChoices (content : List Char) : Bool :=
  scanB choiceAt false content || scanB optionChoiceAt false (content.map Char.toLower)

/-- Word alternation with a trailing `\b`: some word of `words` occurs here and
is followed by a non-word character or the end. -/
def wordAltAt (words : List (List Char)) (l : List Char) : Bool :=
  words.any fun w =>
    match matchLitCI w l with
    | some [] => true
    | some (c :: _) => !isWordChar c
    | none => false

/-- The `\b(w1|w2|...)\b` as an unanchored test. -/
def hasWordFrom (words : List (List Char)) (text : List Char) : Bool :=
  scanB (wordAltAt words) false text

/-- The interrogative/action verbs of `isMCQQuestion`. -/
def questionWords : List (List Char) :=
  ["which".data, "what".data, "how".data, "when".data, "where".data,
   "who".data, "why".data, "calculate".data, "determine".data,
   "identify".data, "select".data]

/-- The `hasQuestion` of `isMCQQuestion`:
`content.includes('?') || /\b(which|what|how|when|where|who|why|calculate|determine|identify|select)\b/i.test(c)`. -/
def hasQuestion (content : List Char) : Bool :=
  content.contains '?' || hasWordFrom questionWords (content.map Char.toLower)

/-- Number of non-overlapping matches of `/\b[A-D]\s*[.)]/g` (case sensitive),
left-to-right, resuming after each match (JavaScript global-match count).
`fuel` is an upper bound on the scan steps; `content.length` suffices since
every step consumes at least one character. -/
def countOptTokens : Nat → Bool → List Char → Nat
  | 0, _, _ => 0
  | _, _, [] => 0
  | fuel + 1, prevW, c :: rest =>
    if !prevW && 'A' ≤ c && c ≤ 'D' then
      match rest.dropWhile jsSpace with
      | p :: r2 =>
        if isDotParen p then 1 + countOptTokens fuel false r2
        else countOptTokens fuel (isWordChar c) rest
      | [] => countOptTokens fuel (isWordChar c) rest
    else countOptTokens fuel (isWordChar c) rest

/-- The `optionMatches.length` where
`optionMatches = content.match(/\b[A-D]\s*[.)]/g) || []`. -/
def optionMatchesCount (content : List Char) : Nat :=
  countOptTokens content.length false content

/-- The `hasMultipleOptions = optionMatches.length >= 3`. -/
def hasMultipleOptions (content : List Char) : Bool :=
  3 ≤ optionMatchesCount content

/-- The `isMCQQuestion` (src/server.js lines 892-899). -/
def isMCQQuestion (content : List Char) : Bool :=
  (hasChoices content || hasMultipleOptions content) && hasQuestion content

/-- Test of
`/\b(correct\s*(answer|choice|option)|answer\s*(is|:)|rationale|explanation\s*for)/i`
at one position. -/
def answerIndicatorAt (l : List Char) : Bool :=
  (match matchLitCI "correct".data l with
   | some r =>
     ((matchLitCI "answer".data (r.dropWhile jsSpace)).isSome ||
      (matchLitCI "choice".data (r.dropWhile jsSpace)).isSome ||
      (matchLitCI "option".data (r.dropWhile jsSpace)).isSome)
   | none => false) ||
  (match matchLitCI "answer".data l with
   | some r =>
     ((matchLitCI "is".data (r.dropWhile jsSpace)).isSome ||
      (matchLitCI ":".data (r.dropWhile jsSpace)).isSome)
   | none => false) ||
  (matchLitCI "rationale".data l).isSome ||
  (match matchLitCI "explanation".data l with
   | some r => (matchLitCI "for".data (r.dropWhile jsSpace)).isSome
   | none => false)

/-- The closing alternation `(correct|incorrect|wrong)` of the
choice-explanation regex, after skipping `\s*`. -/
def choiceExplTail (r : List Char) : Bool :=
  (matchLitCI "correct".data (r.dropWhile jsSpace)).isSome ||
  (matchLitCI "incorrect".data (r.dropWhile jsSpace)).isSome ||
  (matchLitCI "wrong".data (r.dropWhile jsSpace)).isSome

/-- Test of
`/\b(choice|option)\s*[a-d]\s*(is|was|would be)\s*(correct|incorrect|wrong)/i`
at one position. -/
def choiceExplanationAt (l : List Char) : Bool :=
  match matchLitCI "choice".data l <|> matchLitCI "option".data l with
  | some r =>
    (match r.dropWhile jsSpace with
     | c :: r2 =>
       isLetterADci c &&
         (let r3 := r2.dropWhile jsSpace
          (match matchLitCI "is".data r3 with
           | some r4 => choiceExplTail r4
           | none => false) ||
          (match matchLitCI "was".data r3 with
           | some r4 => choiceExplTail r4
           | none => false) ||
          (match matchLitCI "would be".data r3 with
           | some r4 => choiceExplTail r4
           | none => false))
     | [] => false)
  | none => false

/-- The phrases of `/\b(the answer is|correct response|right answer)\b/i`. -/
def answerPhrases : List (List Char) :=
  ["the answer is".data, "correct response".data, "right answer".data]

/-- The `isMCQAnswer` (src/server.js lines 901-907). -/
def isMCQAnswer (content : List Char) : Bool :=
  let c := content.map Char.toLower
  scanB answerIndicatorAt false c ||
  scanB choiceExplanationAt false c ||
  hasWordFrom answerPhrases c

/-- The keywords of
`/\b(discuss|explain in detail|describe|analyze|evaluate|compare and contrast|essay|written response)\b/i`. -/
def essayKeywords : List (List Char) :=
  ["discuss".data, "explain in detail".data, "describe".data, "analyze".data,
   "evaluate".data, "compare and contrast".data, "essay".data,
   "written response".data]

/-- Number of non-overlapping matches of `/\n\n/g`
(`(content.match(/\n\n/g) || []).length`). -/
def countDoubleNewline : List Char → Nat
  | '\n' :: '\n' :: rest => 1 + countDoubleNewline rest
  | _ :: rest => countDoubleNewline rest
  | [] => 0

/-- The `isEssay` (src/server.js lines 909-915). -/
def isEssay (content : List Char) : Bool :=
  let c := content.map Char.toLower
  let hasEssayKeywords := hasWordFrom essayKeywords c
  let isLongForm :=
    decide (500 < content.length) && !isMCQQuestion content && !isMCQAnswer content
  let hasParagraphs := decide (2 ≤ countDoubleNewline content)
  hasEssayKeywords || (isLongForm && hasParagraphs)

/-- Pattern 1 of `extractQuestionNo`, `/\bQ\.?\s*(\d+)/i`, at one position.
The optional dot is tried greedily; if digits do not follow, the dot-free
branch needs a digit at the dot itself and fails. -/
def p1At : List Char → Option (List Char)
  | [] => none
  | c :: rest =>
    if c.toLower = 'q' then
      (match rest with
       | '.' :: r2 => digitsCapture (r2.dropWhile jsSpace)
       | _ => none) <|> digitsCapture (rest.dropWhile jsSpace)
    else none

/-- Pattern 2 of `extractQuestionNo`, `/\bQuestion\s*#?\s*(\d+)/i`, at one
position. -/
def p2At (l : List Char) : Option (List Char) :=
  match matchLitCI "question".data l with
  | some r =>
    (match r.dropWhile jsSpace with
     | '#' :: r2 => digitsCapture (r2.dropWhile jsSpace)
     | r1 => digitsCapture r1)
  | none => none

/-- Pattern 3 of `extractQuestionNo`, `/^\s*(\d+)\s*[.)]/m`, at one line-start
position. -/
def p3At (l : List Char) : Option (List Char) :=
  let r := l.dropWhile jsSpace
  match digitsCapture r with
  | some ds =>
    (match (r.drop ds.length).dropWhile jsSpace with
     | p :: _ => if isDotParen p then some ds else none
     | [] => none)
  | none => none

/-- Pattern 4 of `extractQuestionNo`, `/\bID:\s*\w+\s*(\d+\.\d+)/i`, at one
position.  `\w+` can consume digits, so the two `\s*` and the `\w+` are
backtracked explicitly, longest first, exactly as the JavaScript engine
does. -/
def p4At (l : List Char) : Option (List Char) :=
  match matchLitCI "id:".data l with
  | some r =>
    let s := (r.takeWhile jsSpace).length
    (List.range (s + 1)).reverse.findSome? fun a =>
      let r1 := r.drop a
      let w := (r1.takeWhile isWordChar).length
      (List.range w).reverse.findSome? fun k0 =>
        let r2 := r1.drop (k0 + 1)
        let s2 := (r2.takeWhile jsSpace).length
        (List.range (s2 + 1)).reverse.findSome? fun b =>
          ddCapture (r2.drop b)
  | none => none

/-- Pattern 5 of `extractQuestionNo`, `/\b(\d+\.\d+)\s*\(/`, at one
position. -/
def p5At (l : List Char) : Option (List Char) :=
  match ddCapture l with
  | some cap =>
    (match (l.drop cap.length).dropWhile jsSpace with
     | '(' :: _ => some cap
     | _ => none)
  | none => none

/-- The `extractQuestionNo` (src/server.js lines 917-930): the five patterns in
order; the first pattern with a match anywhere returns its first (leftmost)
capture. -/
def extractQuestionNo (content : List Char) : Option (List Char) :=
  scanBOpt p1At false content <|>
  scanBOpt p2At false content <|>
  scanLS p3At true content <|>
  scanBOpt p4At false content <|>
  scanBOpt p5At false content

end Server

/-- The result of one classification: `{ chunk_type, question_no }`. -/
structure ClassifyResult where
  chunk_type : List Char
  question_no : Option (List Char)
deriving DecidableEq, Repr

namespace Server

/-- The `classifyChunk` (src/server.js lines 932-939).  The guard
`!content || content.length < 10` reduces to the length test, since an empty
list has length `0`. -/
def classifyChunk (content : List Char) : ClassifyResult :=
  if content.length < 10 then ⟨"other".data, none⟩
  else
    let t :=
      if isMCQQuestion content then "mcq_question".data
      else if isMCQAnswer content then "mcq_answer".data
      else if isEssay content then "essay".data
      else "other".data
    ⟨t, extractQuestionNo content⟩

end Server

/-- JavaScript `String.prototype.trim`. -/
def jsTrim (l : List Char) : List Char :=
  ((l.dropWhile jsSpace).reverse.dropWhile jsSpace).reverse

namespace Scripts

/-! ### Chunk classifier of `src/scripts/classify-chunks.js` (lines 30-91) -/

/-- The optional prefix `(?:Q\.?|Question\s*)?` of the MCQ-question patterns:
the list of remainders the engine tries, in backtracking order (the `Q\.?`
alternative with the dot, without the dot, the `Question\s*` alternative with
the whitespace skipped, then the empty match). -/
def qPrefixCandidates (l : List Char) : List (List Char) :=
  (match l with
   | c :: rest =>
     if c.toLower = 'q' then
       (match rest with
        | '.' :: r2 => [r2]
        | _ => []) ++ [rest] ++
       (match matchLitCI "uestion".data rest with
        | some r => [r.dropWhile jsSpace]
        | none => [])
     else []
   | [] => []) ++ [l]

/-- The `#?(\d+)`: an optional hash then the maximal digit run.  If the hash is
present but no digit follows, the hash-free branch fails at the hash itself. -/
def hashDigits (r : List Char) : Option (List Char) :=
  match r with
  | '#' :: r2 => digitsCapture r2
  | _ => digitsCapture r

/-- Pattern `/^(?:Q\.?|Question\s*)?\d+[.\):]\s*[A-Z]/i`. -/
def q1 (t : List Char) : Bool :=
  (qPrefixCandidates t).any fun r =>
    match r.takeWhile Char.isDigit with
    | [] => false
    | d :: ds =>
      match r.drop (d :: ds).length with
      | p :: r2 =>
        (p = '.' || p = ')' || p = ':') &&
          (match r2.dropWhile jsSpace with
           | c :: _ => c.isAlpha
           | [] => false)
      | [] => false

/-- The word alternation of pattern 2, `(?:Which|What|How|Why|When|Where)`. -/
def q2Words : List (List Char) :=
  ["which".data, "what".data, "how".data, "why".data, "when".data, "where".data]

/-- Pattern `/^(?:Q\.?|Question\s*)?#?\d+[.\s]+(?:Which|What|How|Why|When|Where)/i`. -/
def q2 (t : List Char) : Bool :=
  (qPrefixCandidates t).any fun r =>
    let r1 := match r with
              | '#' :: r2 => r2
              | _ => r
    match r1.takeWhile Char.isDigit with
    | [] => false
    | d :: ds =>
      let r2 := r1.drop (d :: ds).length
      let dotWs := fun c => c = '.' || jsSpace c
      1 ≤ (r2.takeWhile dotWs).length &&
        q2Words.any fun w => (matchLitCI w (r2.dropWhile dotWs)).isSome

/-- The `.+\?` tail of pattern 3, entered after at least one `.`-matching
character: scans for a later `?` with no line terminator in between. -/
def qmAfter : List Char → Bool
  | [] => false
  | c :: rest => c = '?' || (!isLineTerm c && qmAfter rest)

/-- The `.+\?` from the current position: at least one non-terminator character,
then a `?` reached without crossing a line terminator. -/
def qmSearch : List Char → Bool
  | [] => false
  | c :: rest => !isLineTerm c && qmAfter rest

/-- Pattern `/^\d+\.\s+.+\?/` (no `m`/`s` flags: `^` is the string start and
`.` excludes line terminators, while `\s+` may cross them; each split of the
greedy `\s+` is tried). -/
def q3 (t : List Char) : Bool :=
  match t.takeWhile Char.isDigit with
  | [] => false
  | d :: ds =>
    match t.drop (d :: ds).length with
    | '.' :: r2 =>
      (List.range ((r2.takeWhile jsSpace).length)).any fun j0 =>
        qmSearch (r2.drop (j0 + 1))
    | _ => false

/-- Pattern `/^(?:MCQ|Multiple Choice)\s*#?\d+/i`. -/
def q4 (t : List Char) : Bool :=
  ["mcq".data, "multiple choice".data].any fun w =>
    match matchLitCI w t with
    | some r =>
      (match (r.dropWhile jsSpace) with
       | '#' :: r2 => 1 ≤ (r2.takeWhile Char.isDigit).length
       | r1 => 1 ≤ (r1.takeWhile Char.isDigit).length)
    | none => false

/-- The `MCQ_QUESTION_PATTERNS` in order; the for-loop returns on the first
match. -/
def questionMatch (t : List Char) : Bool :=
  q1 t || q2 t || q3 t || q4 t

/-- Pattern `/^\s*[A-D][.\)]\s+\w/` (case sensitive). -/
def a1 (t : List Char) : Bool :=
  match t.dropWhile jsSpace with
  | c :: p :: r =>
    ('A' ≤ c && c ≤ 'D') && (p = '.' || p = ')') &&
      1 ≤ (r.takeWhile jsSpace).length &&
      (match r.dropWhile jsSpace with
       | x :: _ => isWordChar x
       | [] => false)
  | _ => false

/-- The mandatory part of pattern `/(?:correct\s*)?answer[:\s]*[A-D]/i` at one
position. -/
def a2Core (l : List Char) : Bool :=
  match matchLitCI "answer".data l with
  | some r =>
    (match r.dropWhile colonWs with
     | c :: _ => isLetterADci c
     | [] => false)
  | none => false

/-- Pattern `/(?:correct\s*)?answer[:\s]*[A-D]/i` at one position (the
optional prefix tried first, as the engine does). -/
def a2At (l : List Char) : Bool :=
  (match matchLitCI "correct".data l with
   | some r => a2Core (r.dropWhile jsSpace)
   | none => false) || a2Core l

/-- Pattern `/(?:correct\s*)?answer[:\s]*[A-D]/i` (unanchored). -/
def a2 (t : List Char) : Bool :=
  scanAny a2At t

/-- The `[A-D][:\s]` with `/i`. -/
def a3Core (l : List Char) : Bool :=
  match l with
  | c :: p :: _ => isLetterADci c && colonWs p
  | _ => false

/-- Pattern `/^(?:Option\s*)?[A-D][:\s]/i`. -/
def a3 (t : List Char) : Bool :=
  (match matchLitCI "option".data t with
   | some r => a3Core (r.dropWhile jsSpace)
   | none => false) || a3Core t

/-- Pattern `/solution[:\s]/i` at one position. -/
def a4At (l : List Char) : Bool :=
  match matchLitCI "solution".data l with
  | some (c :: _) => colonWs c
  | _ => false

/-- Pattern `/solution[:\s]/i` (unanchored). -/
def a4 (t : List Char) : Bool :=
  scanAny a4At t

/-- Pattern `/^(?:Explanation|Rationale)[:\s]/i`. -/
def a5 (t : List Char) : Bool :=
  ["explanation".data, "rationale".data].any fun w =>
    match matchLitCI w t with
    | some (c :: _) => colonWs c
    | _ => false

/-- The `MCQ_ANSWER_PATTERNS` in order. -/
def answerMatch (t : List Char) : Bool :=
  a1 t || a2 t || a3 t || a4 t || a5 t

/-- Pattern `/essay\s*(?:question|response|answer)/i` at one position. -/
def e1At (l : List Char) : Bool :=
  match matchLitCI "essay".data l with
  | some r =>
    ["question".data, "response".data, "answer".data].any fun w =>
      (matchLitCI w (r.dropWhile jsSpace)).isSome
  | none => false

/-- Pattern `/essay\s*(?:question|response|answer)/i` (unanchored). -/
def e1 (t : List Char) : Bool :=
  scanAny e1At t

/-- Pattern `/^(?:Essay|Written Response|Short Answer)\s*#?\d*/i`.  The tail
`\s*#?\d*` matches the empty string, so the pattern holds exactly when the
text starts with one of the three phrases. -/
def e2 (t : List Char) : Bool :=
  ["essay".data, "written response".data, "short answer".data].any fun w =>
    (matchLitCI w t).isSome

/-- Pattern `/in\s+\d+[-\s]*\d*\s*words/i` at one position.  Each greedy run
is deterministic: stopping a quantifier early leaves a character the next
piece cannot consume. -/
def e3At (l : List Char) : Bool :=
  match matchLitCI "in".data l with
  | some r =>
    1 ≤ (r.takeWhile jsSpace).length &&
      (let r1 := r.dropWhile jsSpace
       match r1.takeWhile Char.isDigit with
       | [] => false
       | d :: ds =>
         let r2 := r1.drop (d :: ds).length
         let r3 := r2.dropWhile fun c => c = '-' || jsSpace c
         let r4 := (r3.dropWhile Char.isDigit).dropWhile jsSpace
         (matchLitCI "words".data r4).isSome)
  | none => false

/-- Pattern `/in\s+\d+[-\s]*\d*\s*words/i` (unanchored). -/
def e3 (t : List Char) : Bool :=
  scanAny e3At t

/-- Pattern `/discuss\s+(?:in detail|briefly)/i` at one position. -/
def e4At (l : List Char) : Bool :=
  match matchLitCI "discuss".data l with
  | some r =>
    1 ≤ (r.takeWhile jsSpace).length &&
      ((matchLitCI "in detail".data (r.dropWhile jsSpace)).isSome ||
       (matchLitCI "briefly".data (r.dropWhile jsSpace)).isSome)
  | none => false

/-- Pattern `/discuss\s+(?:in detail|briefly)/i` (unanchored). -/
def e4 (t : List Char) : Bool :=
  scanAny e4At t

/-- The word alternation `(?:concept|process|importance)` of pattern 5. -/
def e5Words (r : List Char) : Bool :=
  ["concept".data, "process".data, "importance".data].any fun w =>
    (matchLitCI w r).isSome

/-- Pattern `/explain\s+(?:the\s+)?(?:concept|process|importance)/i` at one
position. -/
def e5At (l : List Char) : Bool :=
  match matchLitCI "explain".data l with
  | some r =>
    1 ≤ (r.takeWhile jsSpace).length &&
      (let r1 := r.dropWhile jsSpace
       (match matchLitCI "the".data r1 with
        | some r2 => 1 ≤ (r2.takeWhile jsSpace).length && e5Words (r2.dropWhile jsSpace)
        | none => false) || e5Words r1)
  | none => false

/-- Pattern `/explain\s+(?:the\s+)?(?:concept|process|importance)/i`
(unanchored). -/
def e5 (t : List Char) : Bool :=
  scanAny e5At t

/-- The `ESSAY_PATTERNS` in order. -/
def essayMatch (t : List Char) : Bool :=
  e1 t || e2 t || e3 t || e4 t || e5 t

/-- The `text.match(/^(?:Q\.?|Question\s*)?#?(\d+)/i)`: the question number of an
MCQ-question chunk. -/
def questionQno (t : List Char) : Option (List Char) :=
  (qPrefixCandidates t).findSome? hashDigits

/-- The `/(?:question|Q)\s*#?(\d+)/i` at one position (the `question` alternative
tried before the bare `Q`). -/
def answerQnoAt (l : List Char) : Option (List Char) :=
  (match matchLitCI "question".data l with
   | some r => hashDigits (r.dropWhile jsSpace)
   | none => none) <|>
  (match matchLitCI "q".data l with
   | some r => hashDigits (r.dropWhile jsSpace)
   | none => none)

/-- The `text.match(/(?:question|Q)\s*#?(\d+)/i)`: the question number of an
MCQ-answer chunk (leftmost match). -/
def answerQno (t : List Char) : Option (List Char) :=
  scanAnyOpt answerQnoAt t

/-- The `classifyChunk` (src/scripts/classify-chunks.js lines 53-91).  The guard
`!text || text.length < 10` on the trimmed text reduces to the length test. -/
def classifyChunk (content : List Char) : ClassifyResult :=
  let text := jsTrim content
  if text.length < 10 then ⟨"other".data, none⟩
  else if questionMatch text then ⟨"mcq_question".data, questionQno text⟩
  else if answerMatch text then ⟨"mcq_answer".data, answerQno text⟩
  else if essayMatch text then ⟨"essay".data, none⟩
  else ⟨"other".data, none⟩

end Scripts

/-! ### Retrieval coordinator, noise filter, context assembler (src/server.js) -/

/-- JavaScript `String.prototype.includes`: `hasSubstr pat l` holds when `pat`
occurs contiguously in `l`. -/
def hasSubstr (pat : List Char) : List Char → Bool
  | [] => pat.isEmpty
  | c :: rest => pat.isPrefixOf (c :: rest) || hasSubstr pat rest

/-- A row of the vector store's `match_documents` response (§6 of the spec). -/
structure Row where
  id : Nat
  document_id : List Char
  page_number : Nat
  chunk_index : Nat
  chunk_type : Option (List Char)
  question_no : Option (List Char)
  content : List Char
  similarity : Rat
deriving DecidableEq, Repr

/-- The `isNoisyChunk` (src/server.js lines 76-90).  `!c` on the lowercased
content is the empty test; `[a-z]` counts ASCII letters of the lowercased
text; `[^\x00-\x7F]` counts non-ASCII characters. -/
def isNoisyChunk (content : List Char) : Bool :=
  let c := content.map Char.toLower
  if c.isEmpty then true
  else if hasSubstr "t.me/".data c then true
  else if hasSubstr "telegram.me".data c then true
  else if hasSubstr "whatsapp".data c then true
  else
    let letters := (c.filter fun x => 'a' ≤ x && x ≤ 'z').length
    let nonLatin := (c.filter fun x => decide (127 < x.toNat)).length
    decide (letters < 20) && decide (80 < nonLatin)

/-- The final filtering step of `retrieveContext` (src/server.js line 135):
`(data || []).filter((r) => !isNoisyChunk(r.content))`. -/
def cleanHits (rows : List Row) : List Row :=
  rows.filter fun r => !isNoisyChunk r.content

/-- A vector-store error; `message` models `String(error.message || "")`. -/
structure StoreErr where
  message : List Char
deriving DecidableEq, Repr

/-- The payload of the first `match_documents` call (src/server.js lines
110-116).  `E` is the opaque embedding-vector type, passed through
untouched. -/
structure MatchPayload (E : Type) where
  query_embedding : E
  match_threshold : Rat
  match_count : Nat
  filter_document_id : Option (List Char)
  filter_chunk_type : Option (List Char)
deriving DecidableEq, Repr

/-- The two request shapes `retrieveContext` can issue: the full payload, or
the legacy payload `{query_embedding, match_threshold, match_count}` of the
fallback call (src/server.js lines 125-129). -/
inductive RpcCall (E : Type) where
  | full (payload : MatchPayload E)
  | legacy (query_embedding : E) (match_threshold : Rat) (match_count : Nat)
deriving DecidableEq, Repr

/-- The `x || null` coercion applied to the optional filters: an empty string
is also sent as null. -/
def orNullStr : Option (List Char) → Option (List Char)
  | some s => if s.isEmpty then none else some s
  | none => none

/-- The fallback trigger (src/server.js line 123):
`msg.includes("filter_") || msg.includes("does not exist")`. -/
def schemaMismatch (msg : List Char) : Bool :=
  hasSubstr "filter_".data msg || hasSubstr "does not exist".data msg

/-- The `retrieveContext` (src/server.js lines 101-137), instrumented with the
trace of store calls it issues (second component).  The store returns either
an error or an optional row list (`none` models a null `data`, handled by
`data || []`). -/
def retrieveContext {E : Type} (store : RpcCall E → Except StoreErr (Option (List Row)))
    (queryEmbedding : E) (topK : Nat) (threshold : Rat)
    (filterDoc filterChunkType : Option (List Char)) :
    Except StoreErr (List Row) × List (RpcCall E) :=
  let payload : MatchPayload E :=
    ⟨queryEmbedding, threshold, topK, orNullStr filterDoc, orNullStr filterChunkType⟩
  match store (.full payload) with
  | .ok data => (.ok (cleanHits (data.getD [])), [.full payload])
  | .error e =>
    if schemaMismatch e.message then
      match store (.legacy queryEmbedding threshold topK) with
      | .ok data =>
        (.ok (cleanHits (data.getD [])),
         [.full payload, .legacy queryEmbedding threshold topK])
      | .error e2 =>
        (.error e2, [.full payload, .legacy queryEmbedding threshold topK])
    else (.error e, [.full payload])

/-- The `sanitizeText` steps 1-2 (src/server.js lines 66-73): drop null
characters, replace the other control characters by a space. -/
def sanitizePre (s : List Char) : List Char :=
  (s.filter fun c => c.toNat ≠ 0).map fun c =>
    if (1 ≤ c.toNat && c.toNat ≤ 0x1f) || c.toNat = 0x7f then ' ' else c

mutual

/-- The `replace(/[ \t]+/g, " ")`: outside a run of spaces and tabs. -/
def collapseST : List Char → List Char
  | [] => []
  | c :: rest =>
    if c = ' ' || c = '\t' then ' ' :: collapseSTRun rest else c :: collapseST rest

/-- The `replace(/[ \t]+/g, " ")`: inside a run of spaces and tabs (already
emitted as one space). -/
def collapseSTRun : List Char → List Char
  | [] => []
  | c :: rest =>
    if c = ' ' || c = '\t' then collapseSTRun rest else c :: collapseST rest

end

/-- The `sanitizeText` (src/server.js lines 66-73). -/
def sanitizeText (s : List Char) : List Char :=
  jsTrim (collapseST (sanitizePre s))

/-- The block rendered for one hit by `buildContextBlock` (src/server.js
lines 143-145). -/
def renderHit (h : Row) : List Char :=
  "SOURCE: ".data ++ h.document_id ++ " | page:".data ++ (toString h.page_number).data ++
  " | chunk:".data ++ (toString h.chunk_index).data ++ "\n".data ++
  sanitizeText h.content ++ "\n\n---\n\n".data

/-- The accumulation loop of `buildContextBlock` (src/server.js lines
141-149): append a block unless it would push the total past `maxChars`;
break at the first overflow. -/
def buildGo (maxChars : Nat) : List Char → List Row → List Char
  | out, [] => out
  | out, h :: t =>
    if maxChars < out.length + (renderHit h).length then out
    else buildGo maxChars (out ++ renderHit h) t

/-- The `buildContextBlock` (src/server.js lines 139-151): the accumulated blocks,
trimmed. -/
def buildContextBlock (hits : List Row) (maxChars : Nat) : List Char :=
  jsTrim (buildGo maxChars [] hits)

/-! ### Batch classification runners

Three runners exist in the repository:

* the admin endpoint `POST /api/admin/classify-chunks` (src/server.js lines
  942-983): one fetch of up to `limit` chunks whose type is null or `other`,
  then a per-record conditional update;
* `classifyAllChunks` of src/scripts/classify-chunks.js (lines 93-164):
  offset-paginated fetch over the same filter, per-record conditional update
  collection, written when not a dry run;
* `classifyAllChunks` of src/unnamed/part_000 (lines 152-227): offset-paginated
  fetch of chunks whose type is null, ordered by id, page capped at 100,
  unconditional update of every fetched record when not a dry run.

The chunk store is a list of records; an update is a map over the store keyed
by id. -/

/-- One `document_sections` record, as seen by the runners. -/
structure DBChunk where
  id : Nat
  content : List Char
  chunk_type : Option (List Char)
  question_no : Option (List Char)
deriving DecidableEq, Repr

/-- The chunk store. -/
abbrev Store := List DBChunk

/-- The fetch filter `or("chunk_type.is.null,chunk_type.eq.other")` used by the
endpoint and the scripts runner. -/
def eligibleChunk (ch : DBChunk) : Bool :=
  ch.chunk_type = none || ch.chunk_type = some "other".data

/-- The `update({ chunk_type, question_no }).eq("id", id)` on one record. -/
def updOne (i : Nat) (r : ClassifyResult) (ch : DBChunk) : DBChunk :=
  if ch.id = i then { ch with chunk_type := some r.chunk_type, question_no := r.question_no }
  else ch

/-- The `update({ chunk_type, question_no }).eq("id", id)` on the store. -/
def applyWrite (st : Store) (i : Nat) (r : ClassifyResult) : Store :=
  st.map (updOne i r)

/-- JavaScript truthiness of the `question_no` value: null and the empty
string are falsy. -/
def optTruthy : Option (List Char) → Bool
  | none => false
  | some s => !s.isEmpty

/-- The endpoint's per-record write decision (src/server.js line 967):
`!dryRun && (chunk_type !== 'other' || question_no)`. -/
def endpointWriteDecision (dryRun : Bool) (r : ClassifyResult) : Bool :=
  !dryRun && (!(r.chunk_type = "other".data : Bool) || optTruthy r.question_no)

/-- The endpoint's fetch (src/server.js lines 949-953): the eligible chunks,
up to `limit`. -/
def endpointFetch (st : Store) (limit : Nat) : List DBChunk :=
  (st.filter eligibleChunk).take limit

/-- One iteration of the endpoint's record loop (src/server.js lines
962-975). -/
def runStep (dryRun : Bool) (st : Store) (ch : DBChunk) : Store :=
  let r := Server.classifyChunk ch.content
  if endpointWriteDecision dryRun r then applyWrite st ch.id r else st

/-- The endpoint run (src/server.js lines 942-983): fetch once, then process
each fetched record in order. -/
def endpointRun (st : Store) (limit : Nat) (dryRun : Bool) : Store :=
  (endpointFetch st limit).foldl (runStep dryRun) st

/-- The effect of the endpoint loop on one eligible record, as a function of
the record alone (used to characterise `endpointRun`). -/
def stepOne (ch : DBChunk) : DBChunk :=
  let r := Server.classifyChunk ch.content
  if endpointWriteDecision false r then
    { ch with chunk_type := some r.chunk_type, question_no := r.question_no }
  else ch

/-- The scripts runner's per-record write decision
(src/scripts/classify-chunks.js lines 125-137): the update is collected when
`chunk_type !== "other" || question_no` and written when not a dry run. -/
def scriptsWriteDecision (dryRun : Bool) (r : ClassifyResult) : Bool :=
  (!(r.chunk_type = "other".data : Bool) || optTruthy r.question_no) && !dryRun

/-- One record of the scripts runner's page loop. -/
def scriptsStep (dryRun : Bool) (st : Store) (ch : DBChunk) : Store :=
  let r := Scripts.classifyChunk ch.content
  if scriptsWriteDecision dryRun r then applyWrite st ch.id r else st

/-- The scripts runner's page loop (src/scripts/classify-chunks.js lines
100-159): fetch `range(offset, offset + batchSize - 1)` of the eligible
chunks, stop on an empty page, else process the page and advance the offset.
`fuel` bounds the iterations; `st.length + 1` suffices because the offset
grows past the filtered length. -/
def scriptsLoop : Nat → Nat → Nat → Bool → Store → Store
  | 0, _, _, _, st => st
  | fuel + 1, offset, batchSize, dryRun, st =>
    let page := ((st.filter eligibleChunk).drop offset).take batchSize
    if page.isEmpty then st
    else scriptsLoop fuel (offset + batchSize) batchSize dryRun
      (page.foldl (scriptsStep dryRun) st)

/-- The `classifyAllChunks(batchSize, dryRun)` of src/scripts/classify-chunks.js. -/
def scriptsRun (st : Store) (batchSize : Nat) (dryRun : Bool) : Store :=
  scriptsLoop (st.length + 1) 0 batchSize dryRun st

/-- Insertion into an id-sorted list (the `order('id')` of the part_000
fetch). -/
def insertById (ch : DBChunk) : List DBChunk → List DBChunk
  | [] => [ch]
  | c :: rest => if ch.id ≤ c.id then ch :: c :: rest else c :: insertById ch rest

/-- Sort by ascending id. -/
def sortById (l : List DBChunk) : List DBChunk :=
  l.foldr insertById []

/-- One record of the part_000 page loop (src/unnamed/part_000 lines 180-205):
every fetched record is pushed to `updates` and, when not a dry run,
written — there is no write condition. -/
def part000Step (dryRun : Bool) (st : Store) (ch : DBChunk) : Store :=
  if dryRun then st else applyWrite st ch.id (Server.classifyChunk ch.content)

/-- The part_000 page loop (src/unnamed/part_000 lines 161-212): while the
processed count is below `batchLimit`, fetch `range(offset, offset + 99)` of
the null-typed chunks ordered by id, stop on an empty page, else process the
page, add its length to the count and advance the offset by 100. -/
def part000Loop : Nat → Nat → Nat → Nat → Bool → Store → Store
  | 0, _, _, _, _, st => st
  | fuel + 1, offset, total, batchLimit, dryRun, st =>
    if total < batchLimit then
      let page := ((sortById (st.filter fun ch => ch.chunk_type = none)).drop offset).take 100
      if page.isEmpty then st
      else part000Loop fuel (offset + 100) (total + page.length) batchLimit dryRun
        (page.foldl (part000Step dryRun) st)
    else st

/-- The `classifyAllChunks()` of src/unnamed/part_000 with `BATCH_LIMIT =
batchLimit`. -/
def part000Run (st : Store) (batchLimit : Nat) (dryRun : Bool) : Store :=
  part000Loop (st.length + 1) 0 0 batchLimit dryRun st

/-! ### Claim-side comparison definitions and concrete data -/

/-- Modelled from the claim's words (C4): a hit is noise when its content is
empty or blank (whitespace only), contains a messaging-app share marker or
broadcast-channel reference, or has fewer than 20 ASCII letters and more than
80 non-ASCII characters. -/
def claimNoisy (content : List Char) : Bool :=
  let c := content.map Char.toLower
  content.all jsSpace ||
  hasSubstr "t.me/".data c || hasSubstr "telegram.me".data c ||
  hasSubstr "whatsapp".data c ||
  (decide ((c.filter fun x => 'a' ≤ x && x ≤ 'z').length < 20) &&
   decide (80 < (c.filter fun x => decide (127 < x.toNat)).length))

/-- The amended noise characterisation (C4): as `claimNoisy` but with the
blank case narrowed to the empty content, matching `isNoisyChunk`. -/
def amendedNoisy (content : List Char) : Bool :=
  let c := content.map Char.toLower
  content.isEmpty ||
  hasSubstr "t.me/".data c || hasSubstr "telegram.me".data c ||
  hasSubstr "whatsapp".data c ||
  (decide ((c.filter fun x => 'a' ≤ x && x ≤ 'z').length < 20) &&
   decide (80 < (c.filter fun x => decide (127 < x.toNat)).length))

/-- Modelled from the claim's words (C7): a write is issued exactly when
`dry_run` is false and the result has a type other than `other` or a
non-absent question identifier. -/
def claimWriteCond (dryRun : Bool) (r : ClassifyResult) : Bool :=
  !dryRun && (decide (r.chunk_type ≠ "other".data) || decide (r.question_no ≠ none))

/-- A whitespace-only hit (content `" "`), kept by `isNoisyChunk`. -/
def blankRow : Row :=
  ⟨1, "doc".data, 1, 0, none, none, " ".data, 1⟩

/-- A content the server classifier maps to `(mcq_answer, absent)`. -/
def ansContentS : List Char := "The answer is C because x".data

/-- A content the scripts classifier maps to `(mcq_answer, absent)`. -/
def ansContentP : List Char := "A. Something here ok".data

/-- A content both classifiers map to `(other, absent)`. -/
def otherContent : List Char := "hello world.".data

/-- The spec's §8 example content: the server classifier maps it to
`(mcq_answer, absent)`, the scripts classifier to `(other, absent)`. -/
def divergingContent : List Char :=
  "The correct answer is C because depreciation reduces taxable income.".data

/-- A content satisfying both the question and the answer detector. -/
def bothQAContent : List Char :=
  "Which option is correct? A. cash B. debt C. equity D. stock The correct answer is A.".data

/-- A content with choice-like signals but no question-like signal. -/
def choicesOnlyContent : List Char := "A. cash B. debt C. equity D. stock".data

/-- Two-chunk store refuting C8 at `limit = 1`. -/
def c8Store : Store :=
  [⟨1, ansContentS, none, none⟩, ⟨2, ansContentS, none, none⟩]

/-- One-chunk store for the C8 witness. -/
def c8WitnessStore : Store := [⟨1, ansContentS, none, none⟩]

/-- Three-chunk store on which the scripts runner skips the third chunk at
`batchSize = 2`. -/
def c9Store : Store :=
  [⟨1, ansContentP, none, none⟩, ⟨2, ansContentP, none, none⟩, ⟨3, ansContentP, none, none⟩]

/-- One-chunk store whose only record classifies as `(other, absent)`. -/
def c7Store : Store := [⟨1, otherContent, none, none⟩]

/-- A store stub that rejects the full-payload call with a schema-mismatch
message and answers the legacy call (spec §8, fallback test). -/
def legacyOnlyStore : RpcCall Nat → Except StoreErr (Option (List Row))
  | .full _ => .error ⟨"function match_documents(vector, double precision, integer, text, text) does not exist".data⟩
  | .legacy _ _ _ => .ok (some [⟨7, "doc".data, 2, 5, none, none, "Plenty of readable ascii content here for the test".data, 1⟩])

/-- A store stub that rejects the full-payload call with an unrelated
message. -/
def failingStore : RpcCall Nat → Except StoreErr (Option (List Row))
  | .full _ => .error ⟨"permission denied for table document_sections".data⟩
  | .legacy _ _ _ => .ok (some [])

/-! ### Helper lemmas: question-number captures are nonempty -/

theorem digitsCapture_ne_nil {l s : List Char} (h : digitsCapture l = some s) :
    s ≠ [] := by
  unfold digitsCapture at h
  split at h
  · exact absurd h (by simp)
  · next d ds _ => injection h with h'; subst h'; simp

theorem ddCapture_ne_nil {l s : List Char} (h : ddCapture l = some s) :
    s ≠ [] := by
  unfold ddCapture at h
  split at h
  · exact absurd h (by simp)
  · split at h
    · split at h
      · exact absurd h (by simp)
      · next d ds _ _ _ e es _ =>
        injection h with h'; subst h'; simp
    · exact absurd h (by simp)

theorem orElse_eq_some_cases {α : Type} {x y : Option α} {s : α}
    (h : (x <|> y) = some s) : x = some s ∨ y = some s := by
  rcases x with _ | v
  · right; simpa using h
  · left; simpa using h

theorem scanAnyOpt_eq_some {f : List Char → Option (List Char)} {l s : List Char}
    (h : scanAnyOpt f l = some s) : ∃ l', f l' = some s := by
  induction l with
  | nil => simp [scanAnyOpt] at h
  | cons c rest ih =>
    unfold scanAnyOpt at h
    rcases orElse_eq_some_cases h with h' | h'
    · exact ⟨_, h'⟩
    · exact ih h'

theorem scanBOpt_eq_some {f : List Char → Option (List Char)} {b : Bool} {l s : List Char}
    (h : scanBOpt f b l = some s) : ∃ l', f l' = some s := by
  induction l generalizing b with
  | nil => simp [scanBOpt] at h
  | cons c rest ih =>
    unfold scanBOpt at h
    rcases orElse_eq_some_cases h with h' | h'
    · split at h'
      · exact ⟨_, h'⟩
      · exact absurd h' (by simp)
    · exact ih h'

theorem scanLS_eq_some {f : List Char → Option (List Char)} {b : Bool} {l s : List Char}
    (h : scanLS f b l = some s) : ∃ l', f l' = some s := by
  induction l generalizing b with
  | nil => simp [scanLS] at h
  | cons c rest ih =>
    unfold scanLS at h
    rcases orElse_eq_some_cases h with h' | h'
    · split at h'
      · exact ⟨_, h'⟩
      · exact absurd h' (by simp)
    · exact ih h'

theorem p1At_ne_nil {l s : List Char} (h : Server.p1At l = some s) : s ≠ [] := by
  cases l with
  | nil => simp [Server.p1At] at h
  | cons c rest =>
    simp only [Server.p1At] at h
    split at h
    · rcases orElse_eq_some_cases h with h' | h'
      · split at h'
        · exact digitsCapture_ne_nil h'
        · simp at h'
      · exact digitsCapture_ne_nil h'
    · simp at h

theorem p2At_ne_nil {l s : List Char} (h : Server.p2At l = some s) : s ≠ [] := by
  unfold Server.p2At at h
  split at h
  · split at h
    · exact digitsCapture_ne_nil h
    · exact digitsCapture_ne_nil h
  · exact absurd h (by simp)

theorem p3At_ne_nil {l s : List Char} (h : Server.p3At l = some s) : s ≠ [] := by
  simp only [Server.p3At] at h
  split at h
  · next ds hds =>
    split at h
    · split at h
      · injection h with h'; subst h'; exact digitsCapture_ne_nil hds
      · exact absurd h (by simp)
    · exact absurd h (by simp)
  · exact absurd h (by simp)

theorem p4At_ne_nil {l s : List Char} (h : Server.p4At l = some s) : s ≠ [] := by
  unfold Server.p4At at h
  split at h
  · obtain ⟨a, -, ha⟩ := List.exists_of_findSome?_eq_some h
    obtain ⟨k, -, hk⟩ := List.exists_of_findSome?_eq_some ha
    obtain ⟨b, -, hb⟩ := List.exists_of_findSome?_eq_some hk
    exact ddCapture_ne_nil hb
  · exact absurd h (by simp)

theorem p5At_ne_nil {l s : List Char} (h : Server.p5At l = some s) : s ≠ [] := by
  unfold Server.p5At at h
  split at h
  · next cap hcap =>
    split at h
    · injection h with h'; subst h'; exact ddCapture_ne_nil hcap
    · exact absurd h (by simp)
  · exact absurd h (by simp)

theorem extractQuestionNo_ne_nil {content s : List Char}
    (h : Server.extractQuestionNo content = some s) : s ≠ [] := by
  unfold Server.extractQuestionNo at h
  rcases orElse_eq_some_cases h with h | h
  · obtain ⟨l', hl'⟩ := scanBOpt_eq_some h; exact p1At_ne_nil hl'
  rcases orElse_eq_some_cases h with h | h
  · obtain ⟨l', hl'⟩ := scanBOpt_eq_some h; exact p2At_ne_nil hl'
  rcases orElse_eq_some_cases h with h | h
  · obtain ⟨l', hl'⟩ := scanLS_eq_some h; exact p3At_ne_nil hl'
  rcases orElse_eq_some_cases h with h | h
  · obtain ⟨l', hl'⟩ := scanBOpt_eq_some h; exact p4At_ne_nil hl'
  · obtain ⟨l', hl'⟩ := scanBOpt_eq_some h; exact p5At_ne_nil hl'

theorem hashDigits_ne_nil {l s : List Char} (h : Scripts.hashDigits l = some s) :
    s ≠ [] := by
  unfold Scripts.hashDigits at h
  split at h
  · exact digitsCapture_ne_nil h
  · exact digitsCapture_ne_nil h

theorem questionQno_ne_nil {t s : List Char} (h : Scripts.questionQno t = some s) :
    s ≠ [] := by
  obtain ⟨a, -, ha⟩ := List.exists_of_findSome?_eq_some h
  exact hashDigits_ne_nil ha

theorem answerQnoAt_ne_nil {l s : List Char} (h : Scripts.answerQnoAt l = some s) :
    s ≠ [] := by
  unfold Scripts.answerQnoAt at h
  rcases orElse_eq_some_cases h with h' | h' <;>
    (split at h'
     · exact hashDigits_ne_nil h'
     · exact absurd h' (by simp))

theorem answerQno_ne_nil {t s : List Char} (h : Scripts.answerQno t = some s) :
    s ≠ [] := by
  obtain ⟨l', hl'⟩ := scanAnyOpt_eq_some h
  exact answerQnoAt_ne_nil hl'

/-- Truthiness bridge: for an option whose payloads are nonempty, JavaScript
truthiness agrees with presence. -/
theorem optTruthy_eq_decide {o : Option (List Char)} (h : ∀ s, o = some s → s ≠ []) :
    optTruthy o = decide (o ≠ none) := by
  cases o with
  | none => simp [optTruthy]
  | some s =>
    have hs := h s rfl
    simp [optTruthy, hs]

/-- The server classifier's question number is truthy exactly when present. -/
theorem server_qno_truthy (content : List Char) :
    optTruthy (Server.classifyChunk content).question_no =
      decide ((Server.classifyChunk content).question_no ≠ none) := by
  by_cases hlen : content.length < 10
  · simp [Server.classifyChunk, hlen, optTruthy]
  · have : (Server.classifyChunk content).question_no = Server.extractQuestionNo content := by
      simp [Server.classifyChunk, hlen]
    rw [this]
    exact optTruthy_eq_decide fun s hs => extractQuestionNo_ne_nil hs

/-- The scripts classifier's question number is truthy exactly when present. -/
theorem scripts_qno_truthy (content : List Char) :
    optTruthy (Scripts.classifyChunk content).question_no =
      decide ((Scripts.classifyChunk content).question_no ≠ none) := by
  simp only [Scripts.classifyChunk]
  split
  · simp [optTruthy]
  · split
    · exact optTruthy_eq_decide fun s hs => questionQno_ne_nil hs
    · split
      · exact optTruthy_eq_decide fun s hs => answerQno_ne_nil hs
      · split
        · simp [optTruthy]
        · simp [optTruthy]

/-- C6: `classify` applied to
`"1. What is the par value of a share? A. $1 B. $5 C. $10 D. $100"` returns
type `mcq_question` and question identifier `"1"`. -/
theorem classify_c6_example :
    Server.classifyChunk
        "1. What is the par value of a share? A. $1 B. $5 C. $10 D. $100".data =
      ⟨"mcq_question".data, some "1".data⟩ := by
  decide

/-- C2: for every content string passing the length guard, `classifyChunk`
evaluates the question, answer and essay detectors in that fixed order and the
first positive detector determines the type; a string satisfying both the
question and the answer detector is classified `mcq_question`, and a string
satisfying the essay detector together with the question or answer detector is
never classified `essay`. -/
theorem classify_priority (content : List Char) (h : 10 ≤ content.length) :
    ((Server.classifyChunk content).chunk_type =
      (if Server.isMCQQuestion content then "mcq_question".data
       else if Server.isMCQAnswer content then "mcq_answer".data
       else if Server.isEssay content then "essay".data
       else "other".data)) ∧
    (Server.isMCQQuestion content = true → Server.isMCQAnswer content = true →
      (Server.classifyChunk content).chunk_type = "mcq_question".data) ∧
    (Server.isEssay content = true →
      (Server.isMCQQuestion content = true ∨ Server.isMCQAnswer content = true) →
      (Server.classifyChunk content).chunk_type ≠ "essay".data) := by
  have hg : ¬ content.length < 10 := by omega
  refine ⟨by simp [Server.classifyChunk, hg], ?_, ?_⟩
  · intro hq _
    simp [Server.classifyChunk, hg, hq]
  · intro _ hqa
    rcases hqa with hq | ha
    · simp only [Server.classifyChunk, hg, if_false, hq, if_true]
      decide
    · by_cases hq : Server.isMCQQuestion content
      · simp only [Server.classifyChunk, hg, if_false, hq, if_true]
        decide
      · simp only [Server.classifyChunk, hg, if_false, hq, ha, if_true]
        decide

/-- C2 witness: a concrete string satisfying both the question and the answer
detector classifies as `mcq_question`. -/
theorem classify_priority_witness :
    10 ≤ bothQAContent.length ∧
    Server.isMCQQuestion bothQAContent = true ∧
    Server.isMCQAnswer bothQAContent = true ∧
    (Server.classifyChunk bothQAContent).chunk_type = "mcq_question".data :=
  ⟨by decide, by decide, by decide,
   (classify_priority bothQAContent (by decide)).2.1 (by decide) (by decide)⟩

/-- C3: the question detector is positive exactly when a choice-like signal
(`hasChoices`, itself the disjunction of the two choice regexes, or at least
three option tokens) and a question-like signal (`hasQuestion`) both hold; a
string with only one of the two signals fails the detector. -/
theorem question_detector_iff (content : List Char) :
    (Server.isMCQQuestion content = true ↔
      ((Server.hasChoices content = true ∨ Server.hasMultipleOptions content = true) ∧
        Server.hasQuestion content = true)) ∧
    ((Server.hasChoices content = true ∨ Server.hasMultipleOptions content = true) →
      Server.hasQuestion content = false → Server.isMCQQuestion content = false) ∧
    (Server.hasQuestion content = true → Server.hasChoices content = false →
      Server.hasMultipleOptions content = false → Server.isMCQQuestion content = false) := by
  refine ⟨?_, ?_, ?_⟩
  · simp [Server.isMCQQuestion, Bool.and_eq_true, Bool.or_eq_true]
  · intro hA hB
    simp [Server.isMCQQuestion, hB]
  · intro hB h1 h2
    simp [Server.isMCQQuestion, h1, h2]

/-- C3 witness: a concrete string with choice-like signals but no
question-like signal fails the detector. -/
theorem question_detector_iff_witness :
    Server.hasChoices choicesOnlyContent = true ∧
    Server.hasQuestion choicesOnlyContent = false ∧
    Server.isMCQQuestion choicesOnlyContent = false :=
  ⟨by decide, by decide,
   (question_detector_iff choicesOnlyContent).2.1 (Or.inl (by decide)) (by decide)⟩

/-- Trimming never lengthens a string. -/
theorem jsTrim_length_le (l : List Char) : (jsTrim l).length ≤ l.length := by
  unfold jsTrim
  rw [List.length_reverse]
  calc ((l.dropWhile jsSpace).reverse.dropWhile jsSpace).length
      ≤ (l.dropWhile jsSpace).reverse.length := (List.dropWhile_sublist _).length_le
    _ = (l.dropWhile jsSpace).length := List.length_reverse _
    _ ≤ l.length := (List.dropWhile_sublist _).length_le

/-- C10 counterexample: the spec's own §8 string separates the two
implementations — the server classifier answers `(mcq_answer, absent)`, the
scripts classifier `(other, absent)`. -/
theorem classifiers_differ :
    Server.classifyChunk divergingContent = ⟨"mcq_answer".data, none⟩ ∧
    Scripts.classifyChunk divergingContent = ⟨"other".data, none⟩ ∧
    Scripts.classifyChunk divergingContent ≠ Server.classifyChunk divergingContent :=
  ⟨by decide, by decide, by decide⟩

/-- C10 amended: the two classifier implementations are different functions;
they agree on the short-content guard, both mapping any content of fewer than
10 characters to `(other, absent)`. -/
theorem classifiers_agree_on_short (content : List Char) (h : content.length < 10) :
    Scripts.classifyChunk content = Server.classifyChunk content := by
  have ht : (jsTrim content).length < 10 :=
    lt_of_le_of_lt (jsTrim_length_le content) h
  simp [Scripts.classifyChunk, Server.classifyChunk, h, ht]

/-- C10 witness: the agreement instantiated at `"abc"`. -/
theorem classifiers_agree_on_short_witness :
    "abc".data.length < 10 ∧
    Scripts.classifyChunk "abc".data = Server.classifyChunk "abc".data :=
  ⟨by decide, classifiers_agree_on_short "abc".data (by decide)⟩

/-- The noise filter, written as the flat disjunction of the amended claim:
empty content, a messaging marker in the lowercased content, or the
letter/non-ASCII count test. -/
theorem isNoisyChunk_eq_amendedNoisy (content : List Char) :
    isNoisyChunk content = amendedNoisy content := by
  have hm : (content.map Char.toLower).isEmpty = content.isEmpty := by
    cases content <;> simp
  simp only [isNoisyChunk, amendedNoisy, hm]
  cases h0 : content.isEmpty <;>
    cases h1 : hasSubstr "t.me/".data (content.map Char.toLower) <;>
      cases h2 : hasSubstr "telegram.me".data (content.map Char.toLower) <;>
        cases h3 : hasSubstr "whatsapp".data (content.map Char.toLower) <;>
          simp [h0, h1, h2, h3]

/-- C4 counterexample: a whitespace-only hit is "blank" in the claim's sense
but `retrieveContext` keeps it, so the claimed filter equation fails on the
one-hit list. -/
theorem noise_claim_counterexample :
    ¬ (cleanHits [blankRow] = [blankRow].filter fun r => !claimNoisy r.content) := by
  decide

/-- C4 amended: retrieve returns exactly the sub-list of hits that are not
noise, in the store's original order, where a hit is noise exactly when its
content is empty, contains a messaging-app share marker or broadcast-channel
reference, or has fewer than 20 ASCII letters and more than 80 non-ASCII
characters. -/
theorem cleanHits_amended (rows : List Row) :
    cleanHits rows = (rows.filter fun r => !amendedNoisy r.content) ∧
    (cleanHits rows).Sublist rows := by
  constructor
  · exact List.filter_congr fun r _ => by rw [isNoisyChunk_eq_amendedNoisy]
  · exact List.filter_sublist rows

/-- C7 amended: the endpoint and the scripts runner write a record exactly
when the run is not dry and the classification has a type other than `other`
or a present question identifier; the part_000 runner writes every fetched
record whenever the run is not dry, and no runner writes during a dry run. -/
theorem batch_write_condition (dryRun : Bool) (content : List Char) :
    (endpointWriteDecision dryRun (Server.classifyChunk content) =
      claimWriteCond dryRun (Server.classifyChunk content)) ∧
    (scriptsWriteDecision dryRun (Scripts.classifyChunk content) =
      claimWriteCond dryRun (Scripts.classifyChunk content)) ∧
    (∀ st ch, part000Step false st ch =
      applyWrite st ch.id (Server.classifyChunk ch.content)) ∧
    (∀ st ch, part000Step true st ch = st) := by
  refine ⟨?_, ?_, fun st ch => rfl, fun st ch => rfl⟩
  · unfold endpointWriteDecision claimWriteCond
    rw [server_qno_truthy]
    simp [decide_not]
  · unfold scriptsWriteDecision claimWriteCond
    rw [scripts_qno_truthy]
    simp [decide_not, Bool.and_comm]

/-- C7 counterexample: the part_000 runner, not in dry-run mode, persists a
record classified `(other, absent)` — the store changes although the claim
says such a record is never written. -/
theorem part000_writes_other_absent :
    Server.classifyChunk otherContent = ⟨"other".data, none⟩ ∧
    part000Run c7Store 1000 false = [⟨1, otherContent, some "other".data, none⟩] ∧
    part000Run c7Store 1000 false ≠ c7Store :=
  ⟨by decide, by decide, by decide⟩

/-- C9: evaluating the scripts runner at the failing input — three eligible
chunks, page size 2, live mode.  The first page's writes shrink the filtered
view, so the second fetch at offset 2 is empty and the third chunk is never
classified, although it is still eligible. -/
theorem scriptsRun_skips_eligible :
    Scripts.classifyChunk ansContentP = ⟨"mcq_answer".data, none⟩ ∧
    scriptsRun c9Store 2 false =
      [⟨1, ansContentP, some "mcq_answer".data, none⟩,
       ⟨2, ansContentP, some "mcq_answer".data, none⟩,
       ⟨3, ansContentP, none, none⟩] ∧
    eligibleChunk ⟨3, ansContentP, none, none⟩ = true :=
  ⟨by decide, by decide, by decide⟩

/-- C1: `retrieveContext` issues at most two store calls; a successful first
call or a non-schema-mismatch error ends the run after one call (the error
propagating unchanged); a schema-mismatch error triggers exactly one retry
with the same embedding, threshold and topK and no filter fields, whose result
(cleaned on success, the error otherwise) is returned. -/
theorem retrieve_fallback (E : Type) (store : RpcCall E → Except StoreErr (Option (List Row)))
    (qe : E) (topK : Nat) (thr : Rat) (fd ft : Option (List Char)) :
    (retrieveContext store qe topK thr fd ft).2.length ≤ 2 ∧
    (∀ d, store (.full ⟨qe, thr, topK, orNullStr fd, orNullStr ft⟩) = .ok d →
      retrieveContext store qe topK thr fd ft =
        (.ok (cleanHits (d.getD [])),
         [.full ⟨qe, thr, topK, orNullStr fd, orNullStr ft⟩])) ∧
    (∀ e, store (.full ⟨qe, thr, topK, orNullStr fd, orNullStr ft⟩) = .error e →
      schemaMismatch e.message = false →
      retrieveContext store qe topK thr fd ft =
        (.error e, [.full ⟨qe, thr, topK, orNullStr fd, orNullStr ft⟩])) ∧
    (∀ e, store (.full ⟨qe, thr, topK, orNullStr fd, orNullStr ft⟩) = .error e →
      schemaMismatch e.message = true →
      (retrieveContext store qe topK thr fd ft).2 =
        [.full ⟨qe, thr, topK, orNullStr fd, orNullStr ft⟩, .legacy qe thr topK] ∧
      (retrieveContext store qe topK thr fd ft).1 =
        (match store (.legacy qe thr topK) with
         | .ok d => .ok (cleanHits (d.getD []))
         | .error e2 => .error e2)) := by
  refine ⟨?_, ?_, ?_, ?_⟩
  · unfold retrieveContext
    cases hfull : store (.full ⟨qe, thr, topK, orNullStr fd, orNullStr ft⟩) with
    | ok d => simp [hfull]
    | error e =>
      simp only [hfull]
      split
      · cases hleg : store (.legacy qe thr topK) with
        | ok d => simp [hleg]
        | error e2 => simp [hleg]
      · simp
  · intro d hfull
    unfold retrieveContext
    simp [hfull]
  · intro e hfull hmsg
    unfold retrieveContext
    simp [hfull, hmsg]
  · intro e hfull hmsg
    unfold retrieveContext
    simp only [hfull, hmsg, if_true]
    cases hleg : store (.legacy qe thr topK) with
    | ok d => simp [hleg]
    | error e2 => simp [hleg]

/-- C1 witness: against a store stub that rejects any filtered call with a
"does not exist" message, the coordinator issues exactly the full call
followed by the legacy call. -/
theorem retrieve_fallback_witness :
    (retrieveContext legacyOnlyStore (0 : Nat) 5 1 none (some "mcq_question".data)).2 =
      [.full ⟨0, 1, 5, orNullStr none, orNullStr (some "mcq_question".data)⟩,
       .legacy 0 1 5] :=
  ((retrieve_fallback Nat legacyOnlyStore 0 5 1 none
      (some "mcq_question".data)).2.2.2 _ rfl (by decide)).1

/-- The accumulation loop of `buildContextBlock`, characterised: starting from
an in-budget accumulator, the loop appends the rendered blocks of the longest
prefix whose running total stays within the budget and stops at the first
overflowing block. -/
theorem buildGo_spec (maxChars : Nat) (rows : List Row) (out : List Char)
    (h : out.length ≤ maxChars) :
    ∃ n, n ≤ rows.length ∧
      buildGo maxChars out rows = out ++ ((rows.take n).map renderHit).flatten ∧
      (out ++ ((rows.take n).map renderHit).flatten).length ≤ maxChars ∧
      (n = rows.length ∨
        maxChars < (out ++ ((rows.take (n + 1)).map renderHit).flatten).length) := by
  induction rows generalizing out with
  | nil =>
    exact ⟨0, by simp, by simp [buildGo], by simpa using h, Or.inl rfl⟩
  | cons r t ih =>
    by_cases hov : maxChars < out.length + (renderHit r).length
    · refine ⟨0, by simp, ?_, ?_, Or.inr ?_⟩
      · simp [buildGo, hov]
      · simpa using h
      · simpa [List.length_append] using hov
    · push_neg at hov
      obtain ⟨n, hn, heq, hle, hlast⟩ :=
        ih (out ++ renderHit r) (by simpa [List.length_append] using hov)
      refine ⟨n + 1, by simpa using hn, ?_, ?_, ?_⟩
      · have hstep : buildGo maxChars out (r :: t) = buildGo maxChars (out ++ renderHit r) t := by
          simp [buildGo, Nat.not_lt.2 hov]
        rw [hstep, heq, List.take_succ_cons]
        simp [List.append_assoc]
      · rw [List.take_succ_cons]
        simpa [List.append_assoc] using hle
      · rcases hlast with hfin | hovf
        · exact Or.inl (by simp [hfin])
        · refine Or.inr ?_
          rw [List.take_succ_cons]
          simpa [List.append_assoc] using hovf

/-- C5: for every hit list and budget, the assembler renders blocks in order,
keeps the longest prefix whose running total stays within the budget, stops at
the first overflowing block, and the (trimmed) output never exceeds the
budget. -/
theorem buildContextBlock_spec (hits : List Row) (maxChars : Nat) :
    ∃ n, n ≤ hits.length ∧
      buildContextBlock hits maxChars = jsTrim (((hits.take n).map renderHit).flatten) ∧
      (((hits.take n).map renderHit).flatten).length ≤ maxChars ∧
      (buildContextBlock hits maxChars).length ≤ maxChars ∧
      (n = hits.length ∨
        maxChars < (((hits.take (n + 1)).map renderHit).flatten).length) := by
  obtain ⟨n, hn, heq, hle, hlast⟩ := buildGo_spec maxChars hits [] (by simp)
  refine ⟨n, hn, ?_, ?_, ?_, ?_⟩
  · unfold buildContextBlock
    rw [heq]
    simp
  · simpa using hle
  · calc (buildContextBlock hits maxChars).length
        ≤ (buildGo maxChars [] hits).length := jsTrim_length_le _
      _ ≤ maxChars := by rw [heq]; simpa using hle
  · simpa using hlast

theorem updOne_id (i : Nat) (r : ClassifyResult) (ch : DBChunk) :
    (updOne i r ch).id = ch.id := by
  unfold updOne
  split <;> rfl

theorem updOne_content (i : Nat) (r : ClassifyResult) (ch : DBChunk) :
    (updOne i r ch).content = ch.content := by
  unfold updOne
  split <;> rfl

theorem stepOne_id (ch : DBChunk) : (stepOne ch).id = ch.id := by
  simp only [stepOne]
  split <;> rfl

theorem stepOne_content (ch : DBChunk) : (stepOne ch).content = ch.content := by
  simp only [stepOne]
  split <;> rfl

/-- In a store whose id column has no duplicates, records are determined by
their id. -/
theorem nodup_id_inj {st : Store} (h : (st.map DBChunk.id).Nodup) :
    ∀ a ∈ st, ∀ b ∈ st, a.id = b.id → a = b := by
  induction st with
  | nil => simp
  | cons x t ih =>
    simp only [List.map_cons, List.nodup_cons] at h
    obtain ⟨hx, ht⟩ := h
    intro a ha b hb hab
    rcases List.mem_cons.1 ha with rfl | ha' <;> rcases List.mem_cons.1 hb with rfl | hb'
    · rfl
    · exact absurd (hab ▸ List.mem_map_of_mem DBChunk.id hb') hx
    · exact absurd (hab ▸ List.mem_map_of_mem DBChunk.id ha') (by simpa [hab] using hx)
    · exact ih ht a ha' b hb' hab

/-- The endpoint's record loop over a duplicate-free to-do list whose contents
agree with the store: its effect is the per-record `stepOne` applied to the
records whose id is on the list. -/
theorem foldl_runStep_eq_map (todo : List DBChunk) (st : Store)
    (hids : (todo.map DBChunk.id).Nodup)
    (hcont : ∀ t ∈ todo, ∀ c ∈ st, c.id = t.id → c.content = t.content) :
    todo.foldl (runStep false) st =
      st.map (fun c => if c.id ∈ todo.map DBChunk.id then stepOne c else c) := by
  induction todo generalizing st with
  | nil =>
    have : ∀ c ∈ st, (if c.id ∈ ([] : List DBChunk).map DBChunk.id then stepOne c else c) = c := by
      intro c _
      simp
    rw [List.foldl_nil, List.map_congr_left this]
    simp
  | cons x t ih =>
    rw [List.foldl_cons]
    simp only [List.map_cons, List.nodup_cons] at hids
    obtain ⟨hx, ht⟩ := hids
    have hcont' : ∀ a ∈ t, ∀ c ∈ runStep false st x, c.id = a.id → c.content = a.content := by
      intro a hat c hc hid
      simp only [runStep] at hc
      split at hc
      · obtain ⟨c0, hc0, rfl⟩ := List.mem_map.1 hc
        rw [updOne_content]
        exact hcont a (List.mem_cons_of_mem x hat) c0 hc0 (by rw [← updOne_id x.id _ c0, hid])
      · exact hcont a (List.mem_cons_of_mem x hat) c hc hid
    rw [ih (runStep false st x) ht hcont']
    simp only [runStep]
    split
    · next hw =>
      unfold applyWrite
      rw [List.map_map]
      apply List.map_congr_left
      intro c hc
      simp only [Function.comp_apply, List.map_cons]
      by_cases hid : c.id = x.id
      · have hnot : (updOne x.id (Server.classifyChunk x.content) c).id ∉ List.map DBChunk.id t := by
          rw [updOne_id, hid]
          exact hx
        have hpos : c.id ∈ x.id :: List.map DBChunk.id t := by
          rw [hid]
          exact List.mem_cons_self _ _
        have hcx : c.content = x.content := hcont x (List.mem_cons_self x t) c hc hid
        rw [if_neg hnot, if_pos hpos]
        unfold updOne
        rw [if_pos hid]
        simp only [stepOne, hcx]
        rw [if_pos hw]
      · have hupd : updOne x.id (Server.classifyChunk x.content) c = c := by
          unfold updOne
          rw [if_neg hid]
        rw [hupd]
        have hcond : c.id ∈ x.id :: List.map DBChunk.id t ↔ c.id ∈ List.map DBChunk.id t := by
          simp [List.mem_cons, hid]
        by_cases hmem2 : c.id ∈ List.map DBChunk.id t
        · rw [if_pos hmem2, if_pos (hcond.2 hmem2)]
        · rw [if_neg hmem2, if_neg fun hcc => hmem2 (hcond.1 hcc)]
    · next hw =>
      apply List.map_congr_left
      intro c hc
      simp only [List.map_cons]
      by_cases hid : c.id = x.id
      · have hnot : c.id ∉ List.map DBChunk.id t := by
          rw [hid]
          exact hx
        have hpos : c.id ∈ x.id :: List.map DBChunk.id t := by
          rw [hid]
          exact List.mem_cons_self _ _
        have hcx : c.content = x.content := hcont x (List.mem_cons_self x t) c hc hid
        rw [if_neg hnot, if_pos hpos]
        simp only [stepOne, hcx]
        rw [if_neg hw]
      · have hcond : c.id ∈ x.id :: List.map DBChunk.id t ↔ c.id ∈ List.map DBChunk.id t := by
          simp [List.mem_cons, hid]
        by_cases hmem2 : c.id ∈ List.map DBChunk.id t
        · rw [if_pos hmem2, if_pos (hcond.2 hmem2)]
        · rw [if_neg hmem2, if_neg fun hcc => hmem2 (hcond.1 hcc)]

/-- When the limit covers every eligible chunk and ids are unique, one
endpoint run is the pointwise `stepOne` on the eligible records. -/
theorem endpointRun_eq_map (st : Store) (limit : Nat)
    (h1 : (st.map DBChunk.id).Nodup)
    (h2 : (st.filter eligibleChunk).length ≤ limit) :
    endpointRun st limit false =
      st.map (fun c => if eligibleChunk c then stepOne c else c) := by
  unfold endpointRun endpointFetch
  rw [List.take_of_length_le h2]
  have hids : ((st.filter eligibleChunk).map DBChunk.id).Nodup :=
    ((List.filter_sublist st).map DBChunk.id).nodup h1
  have hcont : ∀ t ∈ st.filter eligibleChunk, ∀ c ∈ st, c.id = t.id → c.content = t.content := by
    intro t htf c hc hid
    have ht' : t ∈ st := (List.mem_filter.1 htf).1
    rw [nodup_id_inj h1 c hc t ht' hid]
  rw [foldl_runStep_eq_map (st.filter eligibleChunk) st hids hcont]
  apply List.map_congr_left
  intro c hc
  by_cases he : eligibleChunk c
  · have : c.id ∈ (st.filter eligibleChunk).map DBChunk.id :=
      List.mem_map_of_mem DBChunk.id (List.mem_filter.2 ⟨hc, he⟩)
    rw [if_pos this, if_pos he]
  · have : c.id ∉ (st.filter eligibleChunk).map DBChunk.id := by
      intro hmem
      obtain ⟨t, htf, hid⟩ := List.mem_map.1 hmem
      have ht := List.mem_filter.1 htf
      rw [nodup_id_inj h1 t ht.1 c hc hid] at ht
      exact he ht.2
    rw [if_neg this, if_neg he]

/-- The `stepOne` restricted to eligible records is a fixpoint of itself: the
written record either leaves the eligible set or re-classifies to the values
already stored. -/
theorem stepOne_fix (c : DBChunk) :
    (fun c => if eligibleChunk c then stepOne c else c)
      ((fun c => if eligibleChunk c then stepOne c else c) c) =
    (fun c => if eligibleChunk c then stepOne c else c) c := by
  by_cases he : eligibleChunk c
  · simp only [he, if_pos]
    by_cases hw : endpointWriteDecision false (Server.classifyChunk c.content)
    · have hstep : stepOne c =
          { c with chunk_type := some (Server.classifyChunk c.content).chunk_type,
                   question_no := (Server.classifyChunk c.content).question_no } := by
        simp only [stepOne]
        rw [if_pos hw]
      by_cases hoth : (Server.classifyChunk c.content).chunk_type = "other".data
      · have he2 : eligibleChunk (stepOne c) = true := by
          rw [hstep]
          simp [eligibleChunk, hoth]
      -- the rewritten record is still eligible; it re-classifies identically
        rw [if_pos he2, hstep]
        simp [stepOne, hw]
      · have he2 : eligibleChunk (stepOne c) = false := by
          rw [hstep]
          simp [eligibleChunk, hoth]
        rw [if_neg (by rw [he2]; exact Bool.false_ne_true)]
    · have hstep : stepOne c = c := by
        simp only [stepOne]
        rw [if_neg hw]
      rw [hstep, if_pos he, hstep]
  · simp only [he]
    simp [he]

/-- C8 amended: over a store with unique ids whose eligible chunks all fit in
the fetch limit, a second endpoint run with persistence enabled changes
nothing; without that coverage the second run can touch chunks the first
never fetched (see the counterexample). -/
theorem endpointRun_idempotent (st : Store) (limit : Nat)
    (h1 : (st.map DBChunk.id).Nodup)
    (h2 : (st.filter eligibleChunk).length ≤ limit) :
    endpointRun (endpointRun st limit false) limit false = endpointRun st limit false := by
  have hrun1 := endpointRun_eq_map st limit h1 h2
  have hid_pres : ∀ c, ((fun c => if eligibleChunk c then stepOne c else c) c).id = c.id := by
    intro c
    dsimp only
    by_cases he : eligibleChunk c
    · rw [if_pos he, stepOne_id]
    · rw [if_neg he]
  have h1' : ((st.map fun c => if eligibleChunk c then stepOne c else c).map DBChunk.id).Nodup := by
    rw [List.map_map]
    have : (DBChunk.id ∘ fun c => if eligibleChunk c then stepOne c else c) = DBChunk.id :=
      funext hid_pres
    rw [this]
    exact h1
  have h2' : ((st.map fun c => if eligibleChunk c then stepOne c else c).filter
      eligibleChunk).length ≤ limit := by
    have helig : ∀ c ∈ st,
        (eligibleChunk ((fun c => if eligibleChunk c then stepOne c else c) c)) = true →
          eligibleChunk c = true := by
      intro c _ hgc
      dsimp only at hgc
      by_cases he : eligibleChunk c
      · exact he
      · rw [if_neg he] at hgc
        exact absurd hgc he
    calc ((st.map fun c => if eligibleChunk c then stepOne c else c).filter
            eligibleChunk).length
        = List.countP eligibleChunk (st.map fun c => if eligibleChunk c then stepOne c else c) := by
          rw [List.countP_eq_length_filter]
      _ = List.countP (fun c => eligibleChunk ((fun c => if eligibleChunk c then stepOne c else c) c)) st := by
          rw [List.countP_map]
          rfl
      _ ≤ List.countP eligibleChunk st := List.countP_mono_left helig
      _ = (st.filter eligibleChunk).length := by rw [List.countP_eq_length_filter]
      _ ≤ limit := h2
  rw [hrun1, endpointRun_eq_map _ limit h1' h2', List.map_map]
  apply List.map_congr_left
  intro c _
  exact stepOne_fix c

/-- C8 counterexample: with `limit = 1` over two eligible chunks, the first
run writes only the first chunk, so the second run writes the second chunk
and the store after the second run differs from the store after the first. -/
theorem endpointRun_not_idempotent :
    endpointRun (endpointRun c8Store 1 false) 1 false ≠ endpointRun c8Store 1 false := by
  decide

/-- C8 witness: idempotence instantiated at a concrete one-chunk store and a
covering limit. -/
theorem endpointRun_idempotent_witness :
    (c8WitnessStore.map DBChunk.id).Nodup ∧
    (c8WitnessStore.filter eligibleChunk).length ≤ 5 ∧
    endpointRun (endpointRun c8WitnessStore 5 false) 5 false =
      endpointRun c8WitnessStore 5 false :=
  ⟨by decide, by decide, endpointRun_idempotent c8WitnessStore 5 (by decide) (by decide)⟩
